import Mathlib

/-!
Verification of the multiplayer-match core (`objects/match.py`) of bancho.py.

The Python classes `Slot` and `Match` are shallowly embedded as Lean
structures; the stateful methods become pure functions returning the
updated record, and the broadcast methods, whose only effects are calls
into the out-of-scope channel primitive, return an explicit list of send
events (`Except`-wrapped: a `None`-dereference in Python, such as calling
a method on an unset channel, is modelled as `Except.error`).
The wire-protocol encoders (`packets.updateMatch`, `packets.matchStart`)
are out of scope in the source; operations that call them are
parameterised by an arbitrary encoder function.
-/

namespace Bancho

/-- A participant identity: only its unique `id` is used by this core
(equality checks and authority membership). -/
structure Player where
  id : Nat
deriving DecidableEq, Repr

/-- `SlotStatus`, a bit-flag `IntEnum` in the source: exactly one flag is
set per slot at any time. -/
inductive SlotStatus where
  | open_
  | locked
  | not_ready
  | ready
  | no_map
  | playing
  | complete
  | quit
deriving DecidableEq, Repr

/-- The numeric value of each status flag, as declared in the source enum. -/
def SlotStatus.val : SlotStatus → Nat
  | .open_ => 1
  | .locked => 2
  | .not_ready => 4
  | .ready => 8
  | .no_map => 16
  | .playing => 32
  | .complete => 64
  | .quit => 128

/-- `SlotStatus.has_player = not_ready | ready | no_map | playing | complete`. -/
def SlotStatus.has_player_mask : Nat := 4 ||| 8 ||| 16 ||| 32 ||| 64

/-- The membership test `status & SlotStatus.has_player` (truthiness of the
bitwise AND in Python). -/
def SlotStatus.has_player (st : SlotStatus) : Bool :=
  (st.val &&& SlotStatus.has_player_mask) != 0

/-- `Teams` enum. -/
inductive Teams where
  | neutral
  | blue
  | red
deriving DecidableEq, Repr

/-- One roster position of a match (`Slot` in the source). -/
structure Slot where
  player : Option Player
  status : SlotStatus
  team : Teams
  mods : Nat
  loaded : Bool
  skipped : Bool
deriving DecidableEq, Repr

/-- `Slot.__init__`: empty open slot, no mods (`Mods.NOMOD = 0`). -/
def Slot.init : Slot :=
  { player := none, status := .open_, team := .neutral,
    mods := 0, loaded := false, skipped := false }

/-- `Slot.empty()`. -/
def Slot.empty (s : Slot) : Bool := s.player.isNone

/-- `Slot.copy(s)`: overwrite `player`, `status`, `team`, `mods` from `s`;
the source assigns exactly these four fields. -/
def Slot.copy (self s : Slot) : Slot :=
  { self with player := s.player, status := s.status, team := s.team, mods := s.mods }

/-- `Slot.reset()`: full reset to the empty/open default. -/
def Slot.reset (_ : Slot) : Slot := Slot.init

/-- The channel collaborator, at its interface: this core only reads
whether it has subscribers (`lchan.players` truthiness). -/
structure Channel where
  players : List Player
deriving DecidableEq, Repr

/-- An osu! multiplayer match (`Match` in the source).  `bmap` is kept as
an opaque optional beatmap identifier; `mode`, `type`, `team_type` and
`match_scoring` are kept as their numeric enum values, which this core
never interprets. -/
structure Match where
  id : Nat
  name : String
  passwd : String
  host : Option Player
  _refs : Finset Player
  bmap : Option Nat
  mods : Nat
  mode : Nat
  freemods : Bool
  chat : Option Channel
  slots : List Slot
  type : Nat
  team_type : Nat
  match_scoring : Nat
  in_progress : Bool
  seed : Nat

/-- `Match.__init__` defaults: no host, no referees, no map, no chat,
16 open slots, all enum configuration at its zero value. -/
def Match.init : Match :=
  { id := 0, name := "", passwd := "", host := none, _refs := ∅,
    bmap := none, mods := 0, mode := 0, freemods := false, chat := none,
    slots := List.replicate 16 Slot.init, type := 0, team_type := 0,
    match_scoring := 0, in_progress := false, seed := 0 }

/-- `Match.refs` property: `{self.host} | self._refs`.  In Python `host`
may be `None` and sets are untagged, so the result is a set of
`Option Player` values: the (possibly absent) host together with the
referees. -/
def Match.refs (m : Match) : Finset (Option Player) :=
  insert m.host (m._refs.image some)

/-- `Match.__contains__(p)`: `p in {s.player for s in self.slots}`.
The set comprehension collects the raw `player` fields (including `None`
for empty slots), so the tested value is an `Option Player`. -/
def Match.contains (m : Match) (p : Option Player) : Bool :=
  m.slots.any (fun s => decide (s.player = p))

/-- The loop of `Match.get_free`: first index whose slot status is `open`,
carrying the running `enumerate` index. -/
def get_free_loop : List Slot → Nat → Option Nat
  | [], _ => none
  | s :: rest, idx =>
    if s.status = SlotStatus.open_ then some idx else get_free_loop rest (idx + 1)

/-- `Match.get_free()`: despite its `Optional[Slot]` annotation the source
returns the index of the first open slot, or `None`. -/
def Match.get_free (m : Match) : Option Nat := get_free_loop m.slots 0

/-- The loop of `Match.get_host_slot`.  The Python condition
`s.status & has_player and s.player.id == self.host.id` short-circuits:
the occupant and the host are dereferenced only when the status test
passes, and a `None` on either side is an `AttributeError`, modelled as
`Except.error`. -/
def get_host_slot_loop (host : Option Player) : List Slot → Except Unit (Option Slot)
  | [] => Except.ok none
  | s :: rest =>
    if s.status.has_player then
      match s.player, host with
      | some p, some h =>
        if p.id = h.id then Except.ok (some s) else get_host_slot_loop host rest
      | _, _ => Except.error ()
    else get_host_slot_loop host rest

/-- `Match.get_host_slot()`. -/
def Match.get_host_slot (m : Match) : Except Unit (Option Slot) :=
  get_host_slot_loop m.host m.slots

/-- `Match.copy(m)`: configuration-template copy; the source assigns
exactly `bmap`, `freemods`, `mode`, `team_type`, `match_scoring`,
`mods`, `name`. -/
def Match.copy (self m : Match) : Match :=
  { self with
    bmap := m.bmap, freemods := m.freemods, mode := m.mode,
    team_type := m.team_type, match_scoring := m.match_scoring,
    mods := m.mods, name := m.name }

/-- The loop body of `Match.unready_players`: set status to `not_ready`
when it equals the expected status. -/
def unready_slot (expected : SlotStatus) (s : Slot) : Slot :=
  if s.status = expected then { s with status := SlotStatus.not_ready } else s

/-- `Match.unready_players(expected)` (source default `expected = ready`). -/
def Match.unready_players (m : Match) (expected : SlotStatus) : Match :=
  { m with slots := m.slots.map (unready_slot expected) }

/-- A send event produced by the broadcast methods: either an enqueue on
the match's own chat channel (with its immune id list) or an enqueue on
the `#lobby` discovery channel. -/
inductive BEvent (π : Type) where
  | toSession (payload : π) (immune : List Nat)
  | toLobby (payload : π)
deriving DecidableEq, Repr

/-- The process-wide state this module reads: the result of the
`glob.channels` lookup for the discovery channel name. -/
structure Glob where
  lobby_chan : Option Channel
deriving DecidableEq, Repr

/-- Truthiness of `(lchan := glob.channels[...]) and lchan.players`:
the discovery channel exists and has subscribers. -/
def Glob.lobby_live (g : Glob) : Bool :=
  match g.lobby_chan with
  | some c => !c.players.isEmpty
  | none => false

/-- `Match.enqueue(data, lobby, immune)`.  With no chat channel set the
Python body hits `breakpoint()` and then dereferences `None`
(`AttributeError`), so execution stops: modelled as `Except.error`.
Otherwise it enqueues on the session channel with the immune list and,
when `lobby` is true and the discovery channel has subscribers, on the
discovery channel as well. -/
def Match.enqueue {π : Type} (m : Match) (g : Glob) (data : π)
    (lobby : Bool) (immune : List Nat) : Except Unit (List (BEvent π)) :=
  match m.chat with
  | none => Except.error ()
  | some _ =>
    Except.ok (BEvent.toSession data immune ::
      (if lobby && g.lobby_live then [BEvent.toLobby data] else []))

/-- `Match.enqueue_state(lobby)`, parameterised by the out-of-scope
encoder `packets.updateMatch(match, send_pw)`.  The password-included
encoding goes to the session channel (empty immune list), the redacted
one to the discovery channel when `lobby` is true and it has
subscribers. -/
def Match.enqueue_state {π : Type} (enc : Match → Bool → π) (m : Match)
    (g : Glob) (lobby : Bool) : Except Unit (List (BEvent π)) :=
  match m.chat with
  | none => Except.error ()
  | some _ =>
    Except.ok (BEvent.toSession (enc m true) [] ::
      (if lobby && g.lobby_live then [BEvent.toLobby (enc m false)] else []))

/-- The slot loop of `Match.start()`: each slot with a `has_player` status
other than `no_map` becomes `playing`; a `no_map` slot keeps its status
and contributes its occupant's id (a `None` occupant there would be an
`AttributeError`).  Returns the updated slots and the `no_map` id list. -/
def start_loop : List Slot → Except Unit (List Slot × List Nat)
  | [] => Except.ok ([], [])
  | s :: rest =>
    if s.status.has_player then
      if s.status ≠ SlotStatus.no_map then
        (start_loop rest).map (fun r => ({ s with status := SlotStatus.playing } :: r.1, r.2))
      else
        match s.player with
        | some p => (start_loop rest).map (fun r => (s :: r.1, p.id :: r.2))
        | none => Except.error ()
    else (start_loop rest).map (fun r => (s :: r.1, r.2))

/-- `Match.start()`, parameterised by the out-of-scope encoders
`packets.matchStart` and `packets.updateMatch`: run the slot loop, set
`in_progress`, broadcast the start signal with the `no_map` ids immune,
then broadcast the full state. -/
def Match.start {π : Type} (encStart : Match → π) (encUpdate : Match → Bool → π)
    (m : Match) (g : Glob) : Except Unit (Match × List (BEvent π)) := do
  let r ← start_loop m.slots
  let m2 : Match := { m with slots := r.1, in_progress := true }
  let ev1 ← m2.enqueue g (encStart m2) true r.2
  let ev2 ← Match.enqueue_state encUpdate m2 g true
  return (m2, ev1 ++ ev2)

/-- Spec-side description of the per-slot effect of `start`. -/
def start_slot_update (s : Slot) : Slot :=
  if s.status.has_player ∧ s.status ≠ SlotStatus.no_map
  then { s with status := SlotStatus.playing } else s

/-- Spec-side description of the `no_map` immune id list built by `start`:
the occupant ids of the `no_map` slots, in slot order. -/
def no_map_ids (slots : List Slot) : List Nat :=
  slots.filterMap (fun s =>
    if s.status = SlotStatus.no_map then s.player.map Player.id else none)

/-- Spec-side description of the match state after `start`. -/
def Match.started (m : Match) : Match :=
  { m with slots := m.slots.map start_slot_update, in_progress := true }

/-- A match with the password erased: two matches "differing only in
their password" have equal erasures. -/
def Match.erase_passwd (m : Match) : Match := { m with passwd := "" }

/-- The payloads a broadcast result delivers to the discovery channel. -/
def lobby_sends {π : Type} : Except Unit (List (BEvent π)) → Except Unit (List π)
  | Except.error e => Except.error e
  | Except.ok evs =>
    Except.ok (evs.filterMap (fun ev =>
      match ev with
      | BEvent.toLobby p => some p
      | BEvent.toSession _ _ => none))

/-- Spec-side matching predicate for `get_host_slot`: a `has_player`
status and an occupant whose id equals the host id `h`. -/
def is_host_slot (h : Player) (s : Slot) : Bool :=
  s.status.has_player && s.player.any (fun p => p.id == h.id)

/-! Concrete sample data used to exercise the theorems. -/

/-- Sample host participant. -/
def pHost : Player := ⟨1⟩

/-- Sample guest participant. -/
def pGuest : Player := ⟨2⟩

/-- Sample participant lacking the selected map. -/
def pNoMap : Player := ⟨3⟩

/-- Sample empty session channel. -/
def chanEx : Channel := ⟨[]⟩

/-- Sample process state with no discovery channel registered. -/
def globEx : Glob := ⟨none⟩

/-- Sample process state whose discovery channel has one subscriber. -/
def globLive : Glob := ⟨some ⟨[pGuest]⟩⟩

/-- Sample slot: guest seated and ready. -/
def slotGuestReady : Slot := { Slot.init with player := some pGuest, status := .ready }

/-- Sample slot: host seated, not ready. -/
def slotHostSeated : Slot := { Slot.init with player := some pHost, status := .not_ready }

/-- Sample slot: occupant without the selected map. -/
def slotNoMap : Slot := { Slot.init with player := some pNoMap, status := .no_map }

/-- Sample match for the host-slot query: host seated in slot 2. -/
def mHostSeated : Match :=
  { Match.init with
    host := some pHost,
    slots := Slot.init :: slotGuestReady :: slotHostSeated :: List.replicate 13 Slot.init }

/-- Sample match about to be started: a playable slot and a `no_map` slot. -/
def mStartable : Match :=
  { Match.init with
    host := some pHost,
    chat := some chanEx,
    slots := slotHostSeated :: slotNoMap :: List.replicate 14 Slot.init }

/-- Sample match with a session channel and a password. -/
def mSecret : Match :=
  { Match.init with chat := some chanEx, passwd := "secret" }

/-- `mSecret` with a different password and all other fields equal. -/
def mSecret2 : Match :=
  { Match.init with chat := some chanEx, passwd := "hunter2" }

/-- Sample encoder whose password-included encoding leaks the password
and whose redacted encoding does not depend on it. -/
def encW : Match → Bool → String :=
  fun m b => if b then m.passwd else "redacted"

end Bancho

namespace Bancho

theorem Match.ext_self {m n : Match}
    (h1 : m.id = n.id) (h2 : m.name = n.name) (h3 : m.passwd = n.passwd)
    (h4 : m.host = n.host) (h5 : m._refs = n._refs) (h6 : m.bmap = n.bmap)
    (h7 : m.mods = n.mods) (h8 : m.mode = n.mode) (h9 : m.freemods = n.freemods)
    (h10 : m.chat = n.chat) (h11 : m.slots = n.slots) (h12 : m.type = n.type)
    (h13 : m.team_type = n.team_type) (h14 : m.match_scoring = n.match_scoring)
    (h15 : m.in_progress = n.in_progress) (h16 : m.seed = n.seed) : m = n := by
  cases m; cases n
  simp only at h1 h2 h3 h4 h5 h6 h7 h8 h9 h10 h11 h12 h13 h14 h15 h16
  subst h1 h2 h3 h4 h5 h6 h7 h8 h9 h10 h11 h12 h13 h14 h15 h16
  rfl

/-- C7: the authority set is exactly `{host} ∪ referees` and always
contains the host, whatever the referee set holds. -/
theorem refs_is_host_union_referees (m : Match) :
    m.host ∈ m.refs ∧
    (∀ x : Option Player, x ∈ m.refs ↔ x = m.host ∨ ∃ p ∈ m._refs, x = some p) := by
  constructor
  · exact Finset.mem_insert_self _ _
  · intro x
    simp only [Match.refs, Finset.mem_insert, Finset.mem_image]
    constructor
    · rintro (h | ⟨p, hp, rfl⟩)
      · exact Or.inl h
      · exact Or.inr ⟨p, hp, rfl⟩
    · rintro (h | ⟨p, hp, rfl⟩)
      · exact Or.inl h
      · exact Or.inr ⟨p, hp, rfl⟩

/-- C10: membership (`__contains__`) holds iff some slot's occupant field
equals the tested value; in particular testing the absent participant
(`None`) succeeds exactly when some slot is empty. -/
theorem contains_iff_some_slot_occupant (m : Match) (p : Option Player) :
    (m.contains p = true ↔ ∃ s ∈ m.slots, s.player = p) ∧
    (m.contains none = true ↔ ∃ s ∈ m.slots, s.empty = true) := by
  constructor
  · simp [Match.contains, List.any_eq_true]
  · simp [Match.contains, List.any_eq_true, Slot.empty, Option.isNone_iff_eq_none]

/-- C4: `copy` (the spec's `copy_config`) overwrites exactly `beatmap`,
`freemods`, `mode`, `team_type`, `match_scoring`, `mods`, `name` from the
other match, and leaves `slots`, `host`, `referees`, `id`, `password`,
`in_progress`, `seed` exactly as they were. -/
theorem copy_config_frame (m other : Match) :
    ((m.copy other).bmap = other.bmap ∧
     (m.copy other).freemods = other.freemods ∧
     (m.copy other).mode = other.mode ∧
     (m.copy other).team_type = other.team_type ∧
     (m.copy other).match_scoring = other.match_scoring ∧
     (m.copy other).mods = other.mods ∧
     (m.copy other).name = other.name) ∧
    ((m.copy other).slots = m.slots ∧
     (m.copy other).host = m.host ∧
     (m.copy other)._refs = m._refs ∧
     (m.copy other).id = m.id ∧
     (m.copy other).passwd = m.passwd ∧
     (m.copy other).in_progress = m.in_progress ∧
     (m.copy other).seed = m.seed) :=
  ⟨⟨rfl, rfl, rfl, rfl, rfl, rfl, rfl⟩, rfl, rfl, rfl, rfl, rfl, rfl, rfl⟩

/-- C8: `Slot.copy(other)` overwrites occupant, status, team and mods
from `other` and leaves the round-transient `loaded`/`skipped` flags of
the target exactly as they were. -/
theorem slot_copy_frame (s other : Slot) :
    ((s.copy other).player = other.player ∧
     (s.copy other).status = other.status ∧
     (s.copy other).team = other.team ∧
     (s.copy other).mods = other.mods) ∧
    ((s.copy other).loaded = s.loaded ∧
     (s.copy other).skipped = s.skipped) :=
  ⟨⟨rfl, rfl, rfl, rfl⟩, rfl, rfl⟩

theorem unready_slot_idem (s : Slot) :
    unready_slot SlotStatus.ready (unready_slot SlotStatus.ready s) =
      unready_slot SlotStatus.ready s := by
  by_cases hs : s.status = SlotStatus.ready <;> simp [unready_slot, hs]

/-- C5: `unready_players(expected)` turns exactly the slots whose status
equals `expected` to `not_ready`, changes no other slot's status, changes
no other slot field; and running `unready_players(ready)` twice equals
running it once. -/
theorem unready_players_exact (m : Match) (expected : SlotStatus) :
    (∀ i : Nat,
      ((m.unready_players expected).slots[i]?).map Slot.status =
        (m.slots[i]?).map (fun s =>
          if s.status = expected then SlotStatus.not_ready else s.status) ∧
      ((m.unready_players expected).slots[i]?).map Slot.player =
        (m.slots[i]?).map Slot.player ∧
      ((m.unready_players expected).slots[i]?).map Slot.team =
        (m.slots[i]?).map Slot.team ∧
      ((m.unready_players expected).slots[i]?).map Slot.mods =
        (m.slots[i]?).map Slot.mods ∧
      ((m.unready_players expected).slots[i]?).map Slot.loaded =
        (m.slots[i]?).map Slot.loaded ∧
      ((m.unready_players expected).slots[i]?).map Slot.skipped =
        (m.slots[i]?).map Slot.skipped) ∧
    (m.unready_players SlotStatus.ready).unready_players SlotStatus.ready =
      m.unready_players SlotStatus.ready := by
  constructor
  · intro i
    rcases h : m.slots[i]? with _ | s
    · simp [Match.unready_players, h]
    · refine ⟨?_, ?_, ?_, ?_, ?_, ?_⟩ <;>
        simp [Match.unready_players, h] <;>
        by_cases hs : s.status = expected <;>
        simp [unready_slot, hs]
  · apply Match.ext_self <;> try rfl
    show (m.slots.map (unready_slot SlotStatus.ready)).map (unready_slot SlotStatus.ready) =
      m.slots.map (unready_slot SlotStatus.ready)
    rw [List.map_map]
    exact List.map_congr_left (fun s _ => unready_slot_idem s)

theorem get_free_loop_some (l : List Slot) (k i : Nat) :
    get_free_loop l k = some i ↔
      ∃ j, i = k + j ∧ (∃ s, l[j]? = some s ∧ s.status = SlotStatus.open_) ∧
        ∀ j' < j, ∀ t, l[j']? = some t → t.status ≠ SlotStatus.open_ := by
  induction l generalizing k with
  | nil => simp [get_free_loop]
  | cons s rest ih =>
    by_cases hs : s.status = SlotStatus.open_
    · simp only [get_free_loop, if_pos hs, Option.some.injEq]
      constructor
      · rintro rfl
        exact ⟨0, by omega, ⟨s, by simp, hs⟩, fun j' hj' => absurd hj' (Nat.not_lt_zero _)⟩
      · rintro ⟨j, rfl, ⟨t, ht, hto⟩, hmin⟩
        match j with
        | 0 => omega
        | j + 1 => exact absurd hs (hmin 0 (Nat.succ_pos _) s (by simp))
    · rw [get_free_loop, if_neg hs, ih (k + 1)]
      constructor
      · rintro ⟨j, rfl, ⟨t, ht, hto⟩, hmin⟩
        refine ⟨j + 1, by omega, ⟨t, by simpa using ht, hto⟩, ?_⟩
        intro j' hj' u hu
        match j' with
        | 0 =>
          simp only [List.getElem?_cons_zero, Option.some.injEq] at hu
          exact hu ▸ hs
        | j' + 1 => exact hmin j' (by omega) u (by simpa using hu)
      · rintro ⟨j, rfl, ⟨t, ht, hto⟩, hmin⟩
        match j with
        | 0 =>
          simp only [List.getElem?_cons_zero, Option.some.injEq] at ht
          exact absurd (ht ▸ hto) hs
        | j + 1 =>
          refine ⟨j, by omega, ⟨t, by simpa using ht, hto⟩, ?_⟩
          intro j' hj' u hu
          exact hmin (j' + 1) (by omega) u (by simpa using hu)

theorem get_free_loop_none (l : List Slot) (k : Nat) :
    get_free_loop l k = none ↔ ∀ s ∈ l, s.status ≠ SlotStatus.open_ := by
  induction l generalizing k with
  | nil => simp [get_free_loop]
  | cons s rest ih =>
    by_cases hs : s.status = SlotStatus.open_
    · rw [get_free_loop, if_pos hs]
      constructor
      · intro h
        exact absurd h (by simp)
      · intro h
        exact absurd hs (h s (List.mem_cons_self s rest))
    · rw [get_free_loop, if_neg hs, ih (k + 1)]
      simp only [List.mem_cons]
      constructor
      · rintro h t (rfl | ht)
        · exact hs
        · exact h t ht
      · intro h t ht
        exact h t (Or.inr ht)

/-- C6: `get_free` returns the lowest index holding an `open` slot, or
`none` when no slot is open (total, no failure path); on slots
`[locked, open, open, ...open]` it returns index 1. -/
theorem get_free_lowest_open (m : Match) :
    (∀ i : Nat, m.get_free = some i ↔
       (∃ s, m.slots[i]? = some s ∧ s.status = SlotStatus.open_) ∧
       ∀ j < i, ∀ t, m.slots[j]? = some t → t.status ≠ SlotStatus.open_) ∧
    (m.get_free = none ↔ ∀ s ∈ m.slots, s.status ≠ SlotStatus.open_) ∧
    Match.get_free { Match.init with
      slots := { Slot.init with status := SlotStatus.locked } ::
        List.replicate 15 Slot.init } = some 1 := by
  refine ⟨?_, ?_, by decide⟩
  · intro i
    rw [Match.get_free, get_free_loop_some]
    constructor
    · rintro ⟨j, rfl, hj, hmin⟩
      simp only [Nat.zero_add]
      exact ⟨hj, hmin⟩
    · rintro ⟨hj, hmin⟩
      exact ⟨i, by omega, hj, hmin⟩
  · exact get_free_loop_none m.slots 0

theorem get_host_slot_loop_spec (h : Player) (l : List Slot)
    (hinv : ∀ s ∈ l, s.player.isSome = s.status.has_player) :
    (get_host_slot_loop (some h) l = Except.ok none ∧
      ∀ s ∈ l, is_host_slot h s = false) ∨
    (∃ (i : Nat) (s : Slot), get_host_slot_loop (some h) l = Except.ok (some s) ∧ l[i]? = some s ∧
      is_host_slot h s = true ∧
      ∀ j < i, ∀ t, l[j]? = some t → is_host_slot h t = false) := by
  induction l with
  | nil => exact Or.inl ⟨rfl, by simp⟩
  | cons s rest ih =>
    have hs := hinv s (List.mem_cons_self s rest)
    have ihr := ih (fun t ht => hinv t (List.mem_cons_of_mem s ht))
    by_cases hp : s.status.has_player = true
    · have hsome : s.player.isSome = true := by rw [hs, hp]
      obtain ⟨p, hpeq⟩ := Option.isSome_iff_exists.mp hsome
      by_cases hid : p.id = h.id
      · right
        refine ⟨0, s, ?_, by simp, ?_, fun j hj => absurd hj (Nat.not_lt_zero _)⟩
        · simp [get_host_slot_loop, hp, hpeq, hid]
        · simp [is_host_slot, hp, hpeq, hid]
      · have hhead : is_host_slot h s = false := by simp [is_host_slot, hpeq, hid]
        have hloop : get_host_slot_loop (some h) (s :: rest) =
            get_host_slot_loop (some h) rest := by
          simp [get_host_slot_loop, hp, hpeq, hid]
        rcases ihr with ⟨hok, hall⟩ | ⟨i, t, hok, hget, hmatch, hmin⟩
        · refine Or.inl ⟨hloop ▸ hok, ?_⟩
          intro t ht
          rcases List.mem_cons.mp ht with rfl | ht
          · exact hhead
          · exact hall t ht
        · refine Or.inr ⟨i + 1, t, hloop ▸ hok, by simpa using hget, hmatch, ?_⟩
          intro j hj u hu
          match j with
          | 0 =>
            simp only [List.getElem?_cons_zero, Option.some.injEq] at hu
            exact hu ▸ hhead
          | j + 1 => exact hmin j (by omega) u (by simpa using hu)
    · have hpf : s.status.has_player = false := by simpa using hp
      have hhead : is_host_slot h s = false := by simp [is_host_slot, hpf]
      have hloop : get_host_slot_loop (some h) (s :: rest) =
          get_host_slot_loop (some h) rest := by
        simp [get_host_slot_loop, hpf]
      rcases ihr with ⟨hok, hall⟩ | ⟨i, t, hok, hget, hmatch, hmin⟩
      · refine Or.inl ⟨hloop ▸ hok, ?_⟩
        intro t ht
        rcases List.mem_cons.mp ht with rfl | ht
        · exact hhead
        · exact hall t ht
      · refine Or.inr ⟨i + 1, t, hloop ▸ hok, by simpa using hget, hmatch, ?_⟩
        intro j hj u hu
        match j with
        | 0 =>
          simp only [List.getElem?_cons_zero, Option.some.injEq] at hu
          exact hu ▸ hhead
        | j + 1 => exact hmin j (by omega) u (by simpa using hu)

/-- C9: with a host set and the occupancy invariant (occupant present iff
status is a `has_player` member), `get_host_slot` never hits a `None`
dereference (never `Except.error`): it returns the first slot in index
order with a `has_player` status whose occupant's id equals the host's
id, or `none` when no such slot exists. -/
theorem get_host_slot_no_deref (m : Match) (h : Player)
    (hhost : m.host = some h)
    (hinv : ∀ s ∈ m.slots, s.player.isSome = s.status.has_player) :
    (m.get_host_slot = Except.ok none ∧ ∀ s ∈ m.slots, is_host_slot h s = false) ∨
    (∃ (i : Nat) (s : Slot), m.get_host_slot = Except.ok (some s) ∧ m.slots[i]? = some s ∧
      is_host_slot h s = true ∧
      ∀ j < i, ∀ t, m.slots[j]? = some t → is_host_slot h t = false) := by
  rw [Match.get_host_slot, hhost]
  exact get_host_slot_loop_spec h m.slots hinv

theorem get_host_slot_no_deref_witness :
    (mHostSeated.get_host_slot = Except.ok none ∧
      ∀ s ∈ mHostSeated.slots, is_host_slot pHost s = false) ∨
    (∃ (i : Nat) (s : Slot), mHostSeated.get_host_slot = Except.ok (some s) ∧
      mHostSeated.slots[i]? = some s ∧ is_host_slot pHost s = true ∧
      ∀ j < i, ∀ t, mHostSeated.slots[j]? = some t →
        is_host_slot pHost t = false) :=
  get_host_slot_no_deref mHostSeated pHost rfl (by decide)

/-- C3: with the session channel reference unset, both broadcast
operations stop with an error (the Python body reaches `breakpoint()` and
then a `None` dereference): neither ever returns a successful, silently
skipped or password-free broadcast. -/
theorem broadcast_no_chat_fatal (m : Match) (g : Glob) (h : m.chat = none) :
    (∀ (π : Type) (data : π) (lobby : Bool) (immune : List Nat),
       m.enqueue g data lobby immune = Except.error ()) ∧
    (∀ (π : Type) (enc : Match → Bool → π) (lobby : Bool),
       Match.enqueue_state enc m g lobby = Except.error ()) := by
  refine ⟨?_, ?_⟩ <;> intro π <;> intros <;>
    simp [Match.enqueue, Match.enqueue_state, h]

theorem broadcast_no_chat_fatal_witness :
    Match.enqueue Match.init globEx (0 : Nat) true [] = Except.error () ∧
    Match.enqueue_state (fun _ _ => (0 : Nat)) Match.init globEx true =
      Except.error () :=
  ⟨(broadcast_no_chat_fatal Match.init globEx rfl).1 Nat 0 true [],
   (broadcast_no_chat_fatal Match.init globEx rfl).2 Nat (fun _ _ => 0) true⟩

/-- C2: with a session channel set, `enqueue_state` sends the
password-included encoding only to the session channel and the redacted
encoding to the discovery channel exactly when `lobby` is true and that
channel exists with subscribers; and for any encoder whose redacted
output is independent of the password, two matches differing only in
their password deliver identical payloads to the discovery channel. -/
theorem enqueue_state_password_isolation {π : Type} (enc : Match → Bool → π)
    (g : Glob) (lobby : Bool) :
    (∀ m : Match, m.chat.isSome = true →
       Match.enqueue_state enc m g lobby =
         Except.ok (BEvent.toSession (enc m true) [] ::
           (if lobby && g.lobby_live then [BEvent.toLobby (enc m false)] else []))) ∧
    (∀ m₁ m₂ : Match,
       (∀ n₁ n₂ : Match, n₁.erase_passwd = n₂.erase_passwd →
          enc n₁ false = enc n₂ false) →
       m₁.erase_passwd = m₂.erase_passwd →
       lobby_sends (Match.enqueue_state enc m₁ g lobby) =
         lobby_sends (Match.enqueue_state enc m₂ g lobby)) := by
  constructor
  · intro m hm
    obtain ⟨c, hc⟩ := Option.isSome_iff_exists.mp hm
    simp [Match.enqueue_state, hc]
  · intro m₁ m₂ hind hpw
    have hchat : m₁.chat = m₂.chat := by
      have h2 := congrArg Match.chat hpw
      simpa [Match.erase_passwd] using h2
    have henc : enc m₁ false = enc m₂ false := hind m₁ m₂ hpw
    cases hc : m₁.chat with
    | none =>
      have hc2 : m₂.chat = none := hchat ▸ hc
      simp [Match.enqueue_state, hc, hc2]
    | some c =>
      have hc2 : m₂.chat = some c := hchat ▸ hc
      by_cases hl : (lobby && g.lobby_live) = true <;>
        simp [Match.enqueue_state, hc, hc2, hl, lobby_sends, henc]

theorem enqueue_state_password_isolation_witness :
    (Match.enqueue_state encW mSecret globLive true =
       Except.ok (BEvent.toSession (encW mSecret true) [] ::
         (if true && globLive.lobby_live
          then [BEvent.toLobby (encW mSecret false)] else []))) ∧
    lobby_sends (Match.enqueue_state encW mSecret globLive true) =
      lobby_sends (Match.enqueue_state encW mSecret2 globLive true) :=
  ⟨(enqueue_state_password_isolation encW globLive true).1 mSecret rfl,
   (enqueue_state_password_isolation encW globLive true).2 mSecret mSecret2
     (fun _ _ _ => rfl) rfl⟩

theorem no_map_has_player : SlotStatus.no_map.has_player = true := rfl

theorem start_loop_eq (l : List Slot)
    (hocc : ∀ s ∈ l, s.status = SlotStatus.no_map → s.player.isSome = true) :
    start_loop l = Except.ok (l.map start_slot_update, no_map_ids l) := by
  induction l with
  | nil => rfl
  | cons s rest ih =>
    have ihr := ih (fun t ht => hocc t (List.mem_cons_of_mem s ht))
    by_cases hp : s.status.has_player = true
    · by_cases hn : s.status = SlotStatus.no_map
      · obtain ⟨p, hpeq⟩ := Option.isSome_iff_exists.mp
          (hocc s (List.mem_cons_self s rest) hn)
        simp [start_loop, hp, hn, hpeq, ihr, no_map_ids, start_slot_update,
          no_map_has_player, Except.map]
      · simp [start_loop, hp, hn, ihr, no_map_ids, start_slot_update, Except.map]
    · have hn : s.status ≠ SlotStatus.no_map := by
        intro he
        rw [he] at hp
        exact hp (by decide)
      simp [start_loop, hp, hn, ihr, no_map_ids, start_slot_update, Except.map]

/-- C1: with the session channel set (and `no_map` slots occupied, per
the occupancy invariant), `start` sets every occupied non-`no_map` slot
to `playing`, keeps `no_map` slots as they are while collecting their
occupants' ids, sets `in_progress`, then emits the start signal with
exactly those ids immune followed by the state broadcast; both encoders
see the already-started state (`in_progress = true`), and slots whose
status has no player (`open`, `locked`, `quit`) are untouched. -/
theorem start_transitions_and_broadcasts {π : Type} (encStart : Match → π)
    (encUpdate : Match → Bool → π) (m : Match) (g : Glob)
    (hchat : m.chat.isSome = true)
    (hocc : ∀ s ∈ m.slots, s.status = SlotStatus.no_map → s.player.isSome = true) :
    Match.start encStart encUpdate m g =
      Except.ok (m.started,
        BEvent.toSession (encStart m.started) (no_map_ids m.slots) ::
          ((if g.lobby_live then [BEvent.toLobby (encStart m.started)] else []) ++
            (BEvent.toSession (encUpdate m.started true) [] ::
              (if g.lobby_live then [BEvent.toLobby (encUpdate m.started false)]
               else [])))) ∧
    m.started.in_progress = true ∧
    (∀ i : Nat,
      (m.started.slots[i]?).map Slot.status =
        (m.slots[i]?).map (fun s =>
          if s.status.has_player ∧ s.status ≠ SlotStatus.no_map
          then SlotStatus.playing else s.status) ∧
      (m.started.slots[i]?).map Slot.player = (m.slots[i]?).map Slot.player ∧
      (m.started.slots[i]?).map Slot.team = (m.slots[i]?).map Slot.team ∧
      (m.started.slots[i]?).map Slot.mods = (m.slots[i]?).map Slot.mods ∧
      (m.started.slots[i]?).map Slot.loaded = (m.slots[i]?).map Slot.loaded ∧
      (m.started.slots[i]?).map Slot.skipped = (m.slots[i]?).map Slot.skipped) ∧
    (∀ s ∈ m.slots, s.status.has_player = false → start_slot_update s = s) := by
  obtain ⟨c, hc⟩ := Option.isSome_iff_exists.mp hchat
  refine ⟨?_, rfl, ?_, ?_⟩
  · simp [Match.start, start_loop_eq m.slots hocc, Match.enqueue,
      Match.enqueue_state, hc, Match.started, Bind.bind, Except.bind,
      Pure.pure, Except.pure]
  · intro i
    rcases h : m.slots[i]? with _ | s
    · simp [Match.started, h]
    · refine ⟨?_, ?_, ?_, ?_, ?_, ?_⟩ <;>
        simp [Match.started, h] <;>
        by_cases hu : s.status.has_player ∧ s.status ≠ SlotStatus.no_map <;>
        simp [start_slot_update, hu]
  · intro s _ hps
    simp [start_slot_update, hps]

theorem start_transitions_and_broadcasts_witness :
    Match.start (fun _ => (0 : Nat)) (fun _ b => if b then 1 else 2)
        mStartable globEx =
      Except.ok (mStartable.started,
        BEvent.toSession 0 (no_map_ids mStartable.slots) ::
          ((if globEx.lobby_live then [BEvent.toLobby 0] else []) ++
            (BEvent.toSession (if true then 1 else 2) [] ::
              (if globEx.lobby_live then [BEvent.toLobby (if false then 1 else 2)]
               else [])))) ∧
    mStartable.started.in_progress = true ∧
    (∀ i : Nat,
      (mStartable.started.slots[i]?).map Slot.status =
        (mStartable.slots[i]?).map (fun s =>
          if s.status.has_player ∧ s.status ≠ SlotStatus.no_map
          then SlotStatus.playing else s.status) ∧
      (mStartable.started.slots[i]?).map Slot.player =
        (mStartable.slots[i]?).map Slot.player ∧
      (mStartable.started.slots[i]?).map Slot.team =
        (mStartable.slots[i]?).map Slot.team ∧
      (mStartable.started.slots[i]?).map Slot.mods =
        (mStartable.slots[i]?).map Slot.mods ∧
      (mStartable.started.slots[i]?).map Slot.loaded =
        (mStartable.slots[i]?).map Slot.loaded ∧
      (mStartable.started.slots[i]?).map Slot.skipped =
        (mStartable.slots[i]?).map Slot.skipped) ∧
    (∀ s ∈ mStartable.slots, s.status.has_player = false →
      start_slot_update s = s) :=
  start_transitions_and_broadcasts (fun _ => (0 : Nat))
    (fun _ b => if b then 1 else 2) mStartable globEx rfl (by decide)

end Bancho
